import Mathlib

/-!
Shallow embedding of the multi-backend persistence core of the fastService
repository, together with theorems settling the specification claims.

Source files embedded here:
* `src/app/infrastructure/persistence/adapters/registry.py` (`DatabaseRegistry`)
* `src/app/infrastructure/persistence/adapters/sqlalchemy.py` (`SQLAlchemyAdapter`)
* `src/app/infrastructure/persistence/adapters/redis.py` (`RedisAdapter`)
* `src/app/infrastructure/persistence/repository/sql/mixins.py` (CRUD mixins)
* `src/app/infrastructure/persistence/repository/dialect.py` (upsert strategies)
* `src/app/infrastructure/persistence/service.py` (`BaseService`)
* `src/app/infrastructure/web/pagination/result.py` (`PageResult`)
* `src/app/infrastructure/web/pagination/utils.py` (cursor token encoding)

Python dictionaries are modelled as functions into `Option`, Python `None` as
`Option.none`, raised exceptions as `Except.error` values (or an `Option
Error` component when the mutated object survives the raise), and `async`
effects against the backend as explicit state passing over a list-of-rows
table model.
-/

namespace FastService

/-! ## Database registry (`adapters/registry.py`)

`DatabaseRegistry` keeps a dict of named adapters and a dict of per-kind
default adapter names.  The adapter type is an arbitrary type `A` together
with a `database_type` projection, mirroring the `DatabaseAdapter` protocol
(`adapters/protocols.py`). -/

/-- `DatabaseType` from `adapters/protocols.py`. -/
inductive DatabaseType where
  | sql
  | document
  | kv
deriving DecidableEq

/-- The registry errors: `AdapterAlreadyRegisteredError`, `AdapterNotFoundError`
(the latter also raised as `default:{kind}` by `get_default`), and a plain dict
`KeyError` (reachable only through `get_default` when a default name is not
registered). -/
inductive RegistryError where
  | alreadyRegistered (name : String)
  | notFound (name : String)
  | notFoundDefault (kind : DatabaseType)
  | keyError (name : String)
deriving DecidableEq

/-- `DatabaseRegistry.__init__`: `_adapters : dict[str, DatabaseAdapter]` and
`_defaults : dict[DatabaseType, str]`, modelled as partial maps. -/
structure DatabaseRegistry (A : Type) where
  adapters : String → Option A
  defaults : DatabaseType → Option String

variable {A : Type}

/-- `DatabaseRegistry.register`.  The Python method mutates `self` in place and
raises before mutating on a duplicate name, so it is modelled as returning the
post-call registry together with the raised error, if any. -/
def DatabaseRegistry.register (dbType : A → DatabaseType) (reg : DatabaseRegistry A)
    (name : String) (adapter : A) (set_as_default : Bool) (replace : Bool) :
    DatabaseRegistry A × Option RegistryError :=
  if (reg.adapters name).isSome && !replace then
    (reg, some (.alreadyRegistered name))
  else
    let adapters' : String → Option A :=
      fun n => if n = name then some adapter else reg.adapters n
    let defaults' : DatabaseType → Option String :=
      if set_as_default || (reg.defaults (dbType adapter)).isNone then
        fun k => if k = dbType adapter then some name else reg.defaults k
      else
        reg.defaults
    (⟨adapters', defaults'⟩, none)

/-- `DatabaseRegistry.get`. -/
def DatabaseRegistry.get (reg : DatabaseRegistry A) (name : String) :
    Except RegistryError A :=
  match reg.adapters name with
  | none => .error (.notFound name)
  | some a => .ok a

/-- `DatabaseRegistry.get_default`: looks up the default name for the kind and
then subscripts `_adapters` with it (a plain dict subscript, hence `KeyError`
if the name is somehow absent). -/
def DatabaseRegistry.get_default (reg : DatabaseRegistry A) (k : DatabaseType) :
    Except RegistryError A :=
  match reg.defaults k with
  | none => .error (.notFoundDefault k)
  | some n =>
    match reg.adapters n with
    | none => .error (.keyError n)
    | some a => .ok a

/-! ## Backend adapters (`adapters/sqlalchemy.py`, `adapters/redis.py`)

The engine / session-factory / client handles live in external drivers, so
their types `E`, `F`, `C` and the driver constructors (`create_async_engine`,
`async_sessionmaker`, `aioredis.from_url`) are parameters of the model. -/

/-- `SQLConfig` (frozen dataclass). -/
structure SQLConfig where
  url : String
  echo : Bool
  pool_size : Nat
  max_overflow : Nat
  pool_pre_ping : Bool
  pool_recycle : Nat
deriving DecidableEq

/-- `SQLAlchemyAdapter` mutable state: `_config`, `_engine`, `_session_factory`. -/
structure SQLAlchemyAdapter (E F : Type) where
  config : SQLConfig
  engine : Option E
  session_factory : Option F

/-- `SQLAlchemyAdapter.is_connected`. -/
def SQLAlchemyAdapter.is_connected {E F : Type} (s : SQLAlchemyAdapter E F) : Bool :=
  s.engine.isSome

/-- `SQLAlchemyAdapter.connect`: early-returns when `_engine` is already set,
otherwise builds an engine from the config and a session factory bound to it. -/
def SQLAlchemyAdapter.connect {E F : Type} (createEngine : SQLConfig → E)
    (mkSessionFactory : E → F) (s : SQLAlchemyAdapter E F) : SQLAlchemyAdapter E F :=
  match s.engine with
  | some _ => s
  | none =>
    let e := createEngine s.config
    { s with engine := some e, session_factory := some (mkSessionFactory e) }

/-- `SQLAlchemyAdapter.disconnect`: disposes and clears the handles only when
`_engine is not None`; otherwise the body performs no mutation at all. -/
def SQLAlchemyAdapter.disconnect {E F : Type} (s : SQLAlchemyAdapter E F) :
    SQLAlchemyAdapter E F :=
  match s.engine with
  | some _ => { s with engine := none, session_factory := none }
  | none => s

/-- `RedisConfig` (frozen dataclass). -/
structure RedisConfig where
  url : String
  decode_responses : Bool
  max_connections : Nat
deriving DecidableEq

/-- `RedisAdapter` mutable state: `_config`, `_client`. -/
structure RedisAdapter (C : Type) where
  config : RedisConfig
  client : Option C

/-- `RedisAdapter.is_connected`. -/
def RedisAdapter.is_connected {C : Type} (r : RedisAdapter C) : Bool :=
  r.client.isSome

/-- `RedisAdapter.connect`: early-returns when `_client` is already set. -/
def RedisAdapter.connect {C : Type} (fromUrl : RedisConfig → C) (r : RedisAdapter C) :
    RedisAdapter C :=
  match r.client with
  | some _ => r
  | none => { r with client := some (fromUrl r.config) }

/-- `RedisAdapter.disconnect`: closes and clears the client only when set. -/
def RedisAdapter.disconnect {C : Type} (r : RedisAdapter C) : RedisAdapter C :=
  match r.client with
  | some _ => { r with client := none }
  | none => r

/-! ## Offset pagination (`web/pagination/result.py`)

`PageResult` fields are Python ints, modelled as `Int`; Python `//` is floor
division, modelled by `Int.fdiv`. -/

/-- `PageResult` dataclass. -/
structure PageResult (T : Type) where
  items : List T
  total : Int
  page : Int
  page_size : Int

/-- `PageResult.total_pages`:
`(self.total + self.page_size - 1) // self.page_size if self.total > 0 else 0`. -/
def PageResult.total_pages {T : Type} (p : PageResult T) : Int :=
  if p.total > 0 then (p.total + p.page_size - 1).fdiv p.page_size else 0

/-- `PageResult.has_next`: `self.page < self.total_pages`. -/
def PageResult.has_next {T : Type} (p : PageResult T) : Bool :=
  decide (p.page < p.total_pages)

/-- `PageResult.has_prev`: `self.page > 1`. -/
def PageResult.has_prev {T : Type} (p : PageResult T) : Bool :=
  decide (p.page > 1)

/-! ## Theorems -/

/-- **C2.** With no default yet for kind `K`, registering a kind-`K` adapter
under a fresh name with `set_as_default = false` makes it `K`'s default; with a
default already present (pointing at a registered adapter), a further
registration of kind `K` under a fresh name with `set_as_default = false`
leaves `K`'s default entry, and the adapter `get_default` resolves, unchanged. -/
theorem registry_default_selection (A : Type) (dbType : A → DatabaseType)
    (reg : DatabaseRegistry A) (n : String) (a : A) (K : DatabaseType)
    (hK : dbType a = K) (hfresh : reg.adapters n = none) :
    (reg.defaults K = none →
      (reg.register dbType n a false false).2 = none ∧
      (reg.register dbType n a false false).1.defaults K = some n ∧
      (reg.register dbType n a false false).1.get_default K = .ok a) ∧
    (∀ d ad, reg.defaults K = some d → reg.adapters d = some ad →
      (reg.register dbType n a false false).2 = none ∧
      (reg.register dbType n a false false).1.defaults K = some d ∧
      (reg.register dbType n a false false).1.get_default K = .ok ad) := by
  subst hK
  constructor
  · intro hnone
    refine ⟨?_, ?_, ?_⟩ <;>
      simp [DatabaseRegistry.register, DatabaseRegistry.get_default, hfresh, hnone]
  · intro d ad hd had
    have hdn : ¬ d = n := by
      intro h; rw [h] at had; rw [hfresh] at had; exact Option.noConfusion had
    refine ⟨?_, ?_, ?_⟩ <;>
      simp [DatabaseRegistry.register, DatabaseRegistry.get_default, hfresh, hd,
        had, hdn]

/-- Witness for C2 at a concrete registry. -/
theorem registry_default_selection_witness :
    (({ adapters := fun _ => none, defaults := fun _ => none } :
        DatabaseRegistry DatabaseType).register id "primary" .sql false false).1.get_default
      .sql = .ok .sql := by
  have h := registry_default_selection DatabaseType id
    { adapters := fun _ => none, defaults := fun _ => none } "primary" .sql .sql rfl rfl
  exact (h.1 rfl).2.2

/-- **C3.** If `n` is already registered, `register(n, a)` with
`replace = false` raises `AdapterAlreadyRegisteredError` and leaves the
registry unchanged, while `register(n, a)` with `replace = true` succeeds and a
subsequent `get(n)` returns the new adapter `a`. -/
theorem registry_duplicate_registration (A : Type) (dbType : A → DatabaseType)
    (reg : DatabaseRegistry A) (n : String) (a0 a : A) (sad : Bool)
    (hreg : reg.adapters n = some a0) :
    reg.register dbType n a sad false = (reg, some (.alreadyRegistered n)) ∧
    (reg.register dbType n a sad true).2 = none ∧
    (reg.register dbType n a sad true).1.get n = .ok a := by
  refine ⟨?_, ?_, ?_⟩
  · simp [DatabaseRegistry.register, hreg]
  · simp [DatabaseRegistry.register, hreg]
  · simp only [DatabaseRegistry.register, hreg, Option.isSome_some,
      Bool.not_true, Bool.and_false, Bool.false_eq_true, if_false]
    simp [DatabaseRegistry.get]

/-- Witness for C3 at a concrete registry. -/
theorem registry_duplicate_registration_witness :
    (({ adapters := fun x => if x = "primary" then some DatabaseType.sql else none,
        defaults := fun _ => none } :
        DatabaseRegistry DatabaseType).register id "primary" .document false
      false).2 = some (.alreadyRegistered "primary") := by
  have h := registry_duplicate_registration DatabaseType id
    { adapters := fun x => if x = "primary" then some DatabaseType.sql else none,
      defaults := fun _ => none } "primary" .sql .document false (by simp)
  rw [h.1]

/-- **C9.** `register` with `replace = true` and `set_as_default = false` never
rewrites an existing kind-default entry; hence after re-registering, under the
name `n` that is the current default for `K`, an adapter `a` of a different
kind, `get_default K` returns `a` even though `a`'s kind is not `K`. -/
theorem registry_replace_keeps_stale_default (A : Type) (dbType : A → DatabaseType)
    (reg : DatabaseRegistry A) (n : String) (a : A) (K : DatabaseType)
    (hdef : reg.defaults K = some n) (hkind : dbType a ≠ K) :
    (reg.register dbType n a false true).2 = none ∧
    (∀ J v, reg.defaults J = some v →
      (reg.register dbType n a false true).1.defaults J = some v) ∧
    (reg.register dbType n a false true).1.get_default K = .ok a ∧
    dbType a ≠ K := by
  have hpres : ∀ J v, reg.defaults J = some v →
      (reg.register dbType n a false true).1.defaults J = some v := by
    intro J v hJ
    by_cases hc : (reg.defaults (dbType a)).isNone = true
    · have hJne : ¬ J = dbType a := by
        intro h; rw [← h, hJ] at hc; simp at hc
      simp [DatabaseRegistry.register, hc, hJne, hJ]
    · simp only [Bool.not_eq_true] at hc
      simp [DatabaseRegistry.register, hc, hJ]
  refine ⟨?_, hpres, ?_, hkind⟩
  · simp [DatabaseRegistry.register]
  · have hK : (reg.register dbType n a false true).1.defaults K = some n :=
      hpres K n hdef
    have hA : (reg.register dbType n a false true).1.adapters n = some a := by
      simp [DatabaseRegistry.register]
    simp [DatabaseRegistry.get_default, hK, hA]

/-- Witness for C9: re-registering the SQL default name with a document-kind
adapter leaves the SQL default pointing at the document adapter. -/
theorem registry_replace_keeps_stale_default_witness :
    (({ adapters := fun x => if x = "primary" then some DatabaseType.sql else none,
        defaults := fun k => if k = DatabaseType.sql then some "primary" else none } :
        DatabaseRegistry DatabaseType).register id "primary" .document false
      true).1.get_default .sql = .ok .document := by
  have h := registry_replace_keeps_stale_default DatabaseType id
    { adapters := fun x => if x = "primary" then some DatabaseType.sql else none,
      defaults := fun k => if k = DatabaseType.sql then some "primary" else none }
    "primary" .document .sql (by simp) (by simp)
  exact h.2.2.1

/-- **C7.** `connect()` is idempotent for both the SQLAlchemy and the Redis
adapter: a second call while already connected is a no-op and keeps the same
engine/client handle, and `disconnect()` while not connected is a no-op. -/
theorem adapter_connect_idempotent (E F C : Type) (mkE : SQLConfig → E)
    (mkF : E → F) (fromUrl : RedisConfig → C) (s : SQLAlchemyAdapter E F)
    (r : RedisAdapter C) :
    ((s.connect mkE mkF).connect mkE mkF = s.connect mkE mkF) ∧
    (((s.connect mkE mkF).connect mkE mkF).engine = (s.connect mkE mkF).engine) ∧
    (s.is_connected = true → s.connect mkE mkF = s) ∧
    (s.is_connected = false → s.disconnect = s) ∧
    ((r.connect fromUrl).connect fromUrl = r.connect fromUrl) ∧
    (r.is_connected = true → r.connect fromUrl = r) ∧
    (r.is_connected = false → r.disconnect = r) := by
  refine ⟨?_, ?_, ?_, ?_, ?_, ?_, ?_⟩ <;>
    first
    | (cases hs : s.engine <;>
        simp [SQLAlchemyAdapter.connect, SQLAlchemyAdapter.disconnect,
          SQLAlchemyAdapter.is_connected, hs])
    | (cases hr : r.client <;>
        simp [RedisAdapter.connect, RedisAdapter.disconnect,
          RedisAdapter.is_connected, hr])

/-- Witness for C7 at concrete adapter states. -/
theorem adapter_connect_idempotent_witness :
    ({ config := ⟨"sqlite://", false, 5, 10, true, 3600⟩, engine := none,
       session_factory := none } :
      SQLAlchemyAdapter Nat Nat).disconnect =
      { config := ⟨"sqlite://", false, 5, 10, true, 3600⟩, engine := none,
        session_factory := none } ∧
    ({ config := ⟨"redis://", true, 10⟩, client := none } :
      RedisAdapter Nat).disconnect = { config := ⟨"redis://", true, 10⟩, client := none } := by
  have h := adapter_connect_idempotent Nat Nat Nat (fun _ => 0) (fun e => e)
    (fun _ => 0)
    { config := ⟨"sqlite://", false, 5, 10, true, 3600⟩, engine := none,
      session_factory := none }
    { config := ⟨"redis://", true, 10⟩, client := none }
  exact ⟨h.2.2.2.1 rfl, h.2.2.2.2.2.2 rfl⟩

/-- Ceiling-division bridge: for positive `t` and `s`, the Python expression
`(t + s - 1) // s` computes `⌈t / s⌉`. -/
theorem fdiv_add_pred_eq_ceil (t s : Int) (ht : 0 < t) (hs : 1 ≤ s) :
    (t + s - 1).fdiv s = ⌈(t : ℚ) / (s : ℚ)⌉ := by
  have hs0 : (0 : Int) < s := lt_of_lt_of_le one_pos hs
  have hfd : (t + s - 1).fdiv s = (t + s - 1) / s := Int.fdiv_eq_ediv _ (le_of_lt hs0)
  rw [hfd]
  have hmod := Int.ediv_add_emod (t + s - 1) s
  have hmnn : 0 ≤ (t + s - 1) % s := Int.emod_nonneg _ (ne_of_gt hs0)
  have hmlt : (t + s - 1) % s < s := Int.emod_lt_of_pos _ hs0
  have hle : t ≤ s * ((t + s - 1) / s) := by omega
  have hgt : s * ((t + s - 1) / s) - s < t := by omega
  symm
  rw [Int.ceil_eq_iff]
  have hsQ : (0 : ℚ) < (s : ℚ) := by exact_mod_cast hs0
  constructor
  · rw [lt_div_iff hsQ]
    have h1 : (s : ℚ) * (((t + s - 1) / s : Int) : ℚ) - (s : ℚ) < (t : ℚ) := by
      exact_mod_cast hgt
    push_cast at h1 ⊢
    nlinarith
  · rw [div_le_iff hsQ]
    have h2 : (t : ℚ) ≤ (s : ℚ) * (((t + s - 1) / s : Int) : ℚ) := by
      exact_mod_cast hle
    push_cast at h2 ⊢
    nlinarith

/-- **C6.** For a `PageResult` with `total ≥ 0`, `page ≥ 1`, `page_size ≥ 1`:
`total_pages` is `⌈total / page_size⌉` when `total > 0` and `0` when
`total = 0`; `has_next` holds exactly when `page < total_pages`; and
`has_prev` holds exactly when `page > 1`. -/
theorem page_result_derived_properties (T : Type) (p : PageResult T)
    (htotal : 0 ≤ p.total) (hpage : 1 ≤ p.page) (hsize : 1 ≤ p.page_size) :
    (0 < p.total → p.total_pages = ⌈(p.total : ℚ) / (p.page_size : ℚ)⌉) ∧
    (p.total = 0 → p.total_pages = 0) ∧
    (p.has_next = true ↔ p.page < p.total_pages) ∧
    (p.has_prev = true ↔ 1 < p.page) := by
  refine ⟨?_, ?_, ?_, ?_⟩
  · intro hpos
    rw [PageResult.total_pages, if_pos hpos]
    exact fdiv_add_pred_eq_ceil p.total p.page_size hpos hsize
  · intro h0
    rw [PageResult.total_pages, if_neg (by omega)]
  · simp [PageResult.has_next]
  · simp [PageResult.has_prev]

/-- Witness for C6: 10 records at page size 3 give 4 pages, with a next page
and a previous page from page 2. -/
theorem page_result_derived_properties_witness :
    (({ items := [], total := 10, page := 2, page_size := 3 } :
        PageResult Nat).total_pages = 4) ∧
    (({ items := [], total := 10, page := 2, page_size := 3 } :
        PageResult Nat).has_next = true) ∧
    (({ items := [], total := 10, page := 2, page_size := 3 } :
        PageResult Nat).has_prev = true) := by
  have h := page_result_derived_properties Nat
    { items := [], total := 10, page := 2, page_size := 3 }
    (by norm_num) (by norm_num) (by norm_num)
  refine ⟨by decide, ?_, ?_⟩
  · rw [h.2.2.1]
    decide
  · rw [h.2.2.2]
    decide

/-! ## SQL repository table model (`repository/sql/mixins.py`)

A soft-deletable SQL table is a list of rows.  A row carries the string
primary key and the soft-delete columns declared by `SoftDeleteMixin`
(`is_deleted` defaulting to false, nullable `deleted_at`); the remaining
columns (domain payload, created/updated timestamps) are abstracted into
`payload : α`, which none of the modelled mixin operations read or write.
`datetime.now(UTC)` values are modelled as `Nat` arguments.  SQLAlchemy's
`scalar_one_or_none` raises `MultipleResultsFound` on more than one row,
modelled with `Except`. -/

/-- A row of a soft-deletable SQL model (`SoftDeletableModel`). -/
structure SRecord (α : Type) where
  id : String
  payload : α
  is_deleted : Bool
  deleted_at : Option Nat
deriving DecidableEq

/-- Backend/ORM errors surfaced by the modelled repository calls, plus the
Python `KeyError` a dict subscript can raise. -/
inductive DBError where
  | multipleResultsFound
  | noResultFound
  | keyError
deriving DecidableEq

/-- A table of soft-deletable rows. -/
abbrev Table (α : Type) : Type := List (SRecord α)

namespace SQLRepo

variable {α : Type}

/-- `Result.scalar_one_or_none()`. -/
def scalar_one_or_none (l : List (SRecord α)) : Except DBError (Option (SRecord α)) :=
  match l with
  | [] => .ok none
  | [r] => .ok (some r)
  | _ => .error .multipleResultsFound

/-- `select(model).where(model.id == entity_id)`. -/
def selectById (t : Table α) (i : String) : List (SRecord α) :=
  t.filter (fun r => r.id == i)

/-- `_exclude_deleted`: adds `where(model.is_deleted.is_(False))` (the record
type is soft-deletable, so `_supports_soft_delete` holds). -/
def exclude_deleted (l : List (SRecord α)) : List (SRecord α) :=
  l.filter (fun r => !r.is_deleted)

/-- `SQLReadMixin.find_by_id`. -/
def find_by_id (t : Table α) (i : String) (include_deleted : Bool) :
    Except DBError (Option (SRecord α)) :=
  let rows := selectById t i
  scalar_one_or_none (if include_deleted then rows else exclude_deleted rows)

/-- `SQLReadMixin.exists`: a count over `where(id == entity_id)` with the
soft-delete filter applied unconditionally (there is no `include_deleted`
parameter), compared against zero. -/
def existsById (t : Table α) (i : String) : Bool :=
  decide (0 < (exclude_deleted (selectById t i)).length)

/-- `SQLWriteMixin.create` on a soft-deletable model: inserts the row built
from the field values; the soft-delete columns take their declared defaults
(`is_deleted = False`, `deleted_at = None`).  Returns the refreshed entity and
the new table. -/
def create (t : Table α) (i : String) (p : α) : SRecord α × Table α :=
  let r : SRecord α := ⟨i, p, false, none⟩
  (r, t ++ [r])

/-- The row-level effect of `_soft_delete`'s
`update … where(id == entity_id).where(is_deleted.is_(False))
.values(is_deleted=True, deleted_at=now)`. -/
def soft_delete_row (i : String) (now : Nat) (r : SRecord α) : SRecord α :=
  if r.id == i && !r.is_deleted then
    { r with is_deleted := true, deleted_at := some now }
  else r

/-- `SQLWriteMixin._soft_delete`: returns `rowcount > 0` and the new table. -/
def soft_delete (t : Table α) (i : String) (now : Nat) : Bool × Table α :=
  (decide (0 < (t.filter (fun r => r.id == i && !r.is_deleted)).length),
   t.map (soft_delete_row i now))

/-- `SQLWriteMixin._hard_delete`: `delete(model).where(model.id == entity_id)`. -/
def hard_delete (t : Table α) (i : String) : Bool × Table α :=
  (decide (0 < (t.filter (fun r => r.id == i)).length),
   t.filter (fun r => !(r.id == i)))

/-- `_supports_soft_delete(model)`: `hasattr(model, "is_deleted")`, which holds
structurally for every `SRecord` type. -/
def supports_soft_delete : Bool := true

/-- `SQLWriteMixin.delete(entity_id, hard)`. -/
def delete (t : Table α) (i : String) (hard : Bool) (now : Nat) : Bool × Table α :=
  if hard || !supports_soft_delete then hard_delete t i else soft_delete t i now

/-- The row-level effect of `restore`'s
`update … where(id == entity_id).where(is_deleted.is_(True))
.values(is_deleted=False, deleted_at=None)`. -/
def restore_row (i : String) (r : SRecord α) : SRecord α :=
  if r.id == i && r.is_deleted then
    { r with is_deleted := false, deleted_at := none }
  else r

/-- `SQLSoftDeleteMixin.restore`: the `returning(model)` clause yields the
updated rows, collapsed through `scalar_one_or_none`. -/
def restore (t : Table α) (i : String) : Except DBError (Option (SRecord α)) × Table α :=
  if !supports_soft_delete then (.ok none, t)
  else
    ((scalar_one_or_none
        ((t.filter (fun r => r.id == i && r.is_deleted)).map
          (fun r => { r with is_deleted := false, deleted_at := none }))),
     t.map (restore_row i))

/-- `SQLWriteMixin.update` on a soft-deletable model: conditional update with
`returning(model)`, excluding soft-deleted rows.  The assignment of the
field-value dict via `.values(**data)` is abstracted as `apply`. -/
def repo_update (t : Table α) (i : String) (apply : SRecord α → SRecord α) :
    Except DBError (Option (SRecord α)) × Table α :=
  (scalar_one_or_none
      ((t.filter (fun r => r.id == i && !r.is_deleted)).map apply),
   t.map (fun r => if r.id == i && !r.is_deleted then apply r else r))

end SQLRepo

/-! ## Dialect upsert strategies (`repository/dialect.py`) and
`SQLUpsertMixin.upsert` (`repository/sql/mixins.py`)

At the dialect level a row is the raw field mapping the strategies receive.
The built statements execute inside the backend, so the statement type is a
small syntax tree and the session-execution effect over the table is an
abstract parameter `exec`. -/

/-- A raw row as a field-value mapping. -/
abbrev DRow (V : Type) : Type := List (String × V)

/-- The statements the three dialect strategies build: `pg_insert`/
`sqlite_insert` with `on_conflict_do_update(...).returning(model)`, and
`mysql_insert` with `on_duplicate_key_update(...)`. -/
inductive UpsertStmt (V : Type) where
  | pgInsertOnConflict (data : DRow V) (conflict_fields : List String)
      (update_fields : List String)
  | sqliteInsertOnConflict (data : DRow V) (conflict_fields : List String)
      (update_fields : List String)
  | mysqlOnDuplicateKey (data : DRow V) (update_fields : List String)
deriving DecidableEq

/-- The `UpsertStrategy` protocol: a `supports_returning` flag and
`build_upsert(model, data, conflict_fields, update_fields)`. -/
structure UpsertStrategy (V : Type) where
  supports_returning : Bool
  build_upsert : DRow V → List String → List String → UpsertStmt V

/-- `PostgresUpsertStrategy`. -/
def PostgresUpsertStrategy (V : Type) : UpsertStrategy V :=
  ⟨true, fun d c u => .pgInsertOnConflict d c u⟩

/-- `SqliteUpsertStrategy`. -/
def SqliteUpsertStrategy (V : Type) : UpsertStrategy V :=
  ⟨true, fun d c u => .sqliteInsertOnConflict d c u⟩

/-- `MySQLUpsertStrategy`: `supports_returning = False`, and `build_upsert`
ignores its `_conflict_fields` argument (MySQL resolves conflicts against the
table's own unique keys). -/
def MySQLUpsertStrategy (V : Type) : UpsertStrategy V :=
  ⟨false, fun d _c u => .mysqlOnDuplicateKey d u⟩

/-- `get_upsert_strategy`: substring match on the dialect token in the URL,
defaulting to the SQLite strategy. -/
def get_upsert_strategy (V : Type) (database_url : String) : UpsertStrategy V :=
  if "postgresql".toList <:+: database_url.toList then PostgresUpsertStrategy V
  else if "mysql".toList <:+: database_url.toList then MySQLUpsertStrategy V
  else SqliteUpsertStrategy V

/-- `update_fields or [k for k in data if k not in conflict_fields]` from
`SQLUpsertMixin.upsert` (a present-but-empty list is falsy in Python). -/
def fields_to_update {V : Type} (data : DRow V) (conflict_fields : List String)
    (update_fields : Option (List String)) : List String :=
  match update_fields with
  | some u =>
    if u.isEmpty then (data.map Prod.fst).filter (fun k => !conflict_fields.contains k)
    else u
  | none => (data.map Prod.fst).filter (fun k => !conflict_fields.contains k)

/-- `{field: data[field] for field in conflict_fields}`: `none` models the
`KeyError` raised when a conflict field is missing from `data`. -/
def build_filters {V : Type} (data : DRow V) (conflict_fields : List String) :
    Option (List (String × V)) :=
  conflict_fields.mapM (fun f => (data.lookup f).map (fun v => (f, v)))

/-- `select(model).filter_by(**filters)`: equality filters, conjoined. -/
def filter_by {V : Type} [DecidableEq V] (t : List (DRow V)) (filters : List (String × V)) :
    List (DRow V) :=
  t.filter (fun row => filters.all (fun kv => decide (row.lookup kv.1 = some kv.2)))

/-- `Result.scalar_one()`: exactly one row, else `NoResultFound` /
`MultipleResultsFound`. -/
def scalar_one {V : Type} [DecidableEq V] (l : List (DRow V)) : Except DBError (DRow V) :=
  match l with
  | [] => .error .noResultFound
  | [r] => .ok r
  | _ => .error .multipleResultsFound

/-- `SQLUpsertMixin.upsert`: builds the dialect statement with the defaulted
update-field list, executes it, flushes when the strategy supports returning
(no table-level effect), and always re-queries by the conflict-field values
taken from `data`. -/
def upsert {V : Type} [DecidableEq V] (strategy : UpsertStrategy V)
    (exec : List (DRow V) → UpsertStmt V → List (DRow V)) (t : List (DRow V))
    (data : DRow V) (conflict_fields : List String)
    (update_fields : Option (List String)) : Except DBError (DRow V) × List (DRow V) :=
  let fields := fields_to_update data conflict_fields update_fields
  let stmt := strategy.build_upsert data conflict_fields fields
  let t2 := exec t stmt
  match build_filters data conflict_fields with
  | none => (.error .keyError, t2)
  | some filters => (scalar_one (filter_by t2 filters), t2)

/-! ## Cursor tokens (`web/pagination/utils.py`)

`encode_cursor(value) = b64encode(value.encode()).decode()` and
`decode_cursor(cursor) = b64decode(cursor.encode()).decode()` with
`binascii.Error`, `UnicodeDecodeError` and `ValueError` (which covers
`UnicodeEncodeError`) converted to `None`.

A Python `str` is modelled as its list of code points (`PyStr`), bytes as
lists of naturals below 256.  `str.encode()` / `bytes.decode()` are strict
UTF-8 (failing on lone surrogates), and `base64.b64decode` (with its default
`validate=False`) is the CPython `binascii.a2b_base64` non-strict state
machine: characters outside the alphabet are discarded, `=` finishes a quad
of at least two data characters, and a trailing partial quad is an error. -/

/-- A Python `str` as its code points. -/
abbrev PyStr : Type := List Nat

/-- UTF-8 encoding of one code point; `none` on lone surrogates or values
past U+10FFFF (`UnicodeEncodeError`). -/
def utf8EncodeChar (c : Nat) : Option (List Nat) :=
  if c < 128 then some [c]
  else if c < 2048 then some [192 + c / 64, 128 + c % 64]
  else if c < 55296 then some [224 + c / 4096, 128 + c / 64 % 64, 128 + c % 64]
  else if c < 57344 then none
  else if c < 65536 then some [224 + c / 4096, 128 + c / 64 % 64, 128 + c % 64]
  else if c < 1114112 then
    some [240 + c / 262144, 128 + c / 4096 % 64, 128 + c / 64 % 64, 128 + c % 64]
  else none

/-- `str.encode()`: UTF-8 encode every code point. -/
def pyEncodeUtf8 : PyStr → Option (List Nat)
  | [] => some []
  | c :: cs =>
    match utf8EncodeChar c, pyEncodeUtf8 cs with
    | some b, some bs => some (b ++ bs)
    | _, _ => none

/-- One step of strict UTF-8 decoding: given the lead byte and the remaining
bytes, the decoded code point and the rest, or `none` on malformed input
(stray or missing continuation bytes, overlong forms, surrogates, values past
U+10FFFF). -/
def utf8DecodeStep (b : Nat) (rest : List Nat) : Option (Nat × List Nat) :=
  if b < 128 then some (b, rest)
  else if b < 194 then none
  else if b < 224 then
    match rest with
    | b1 :: rest2 =>
      if 128 ≤ b1 ∧ b1 < 192 then some ((b - 192) * 64 + (b1 - 128), rest2)
      else none
    | [] => none
  else if b < 240 then
    match rest with
    | b1 :: b2 :: rest2 =>
      if 128 ≤ b1 ∧ b1 < 192 ∧ 128 ≤ b2 ∧ b2 < 192 then
        let c := (b - 224) * 4096 + (b1 - 128) * 64 + (b2 - 128)
        if 2048 ≤ c ∧ ¬ (55296 ≤ c ∧ c < 57344) then some (c, rest2) else none
      else none
    | _ => none
  else if b < 245 then
    match rest with
    | b1 :: b2 :: b3 :: rest2 =>
      if 128 ≤ b1 ∧ b1 < 192 ∧ 128 ≤ b2 ∧ b2 < 192 ∧ 128 ≤ b3 ∧ b3 < 192 then
        let c := (b - 240) * 262144 + (b1 - 128) * 4096 + (b2 - 128) * 64 +
          (b3 - 128)
        if 65536 ≤ c ∧ c < 1114112 then some (c, rest2) else none
      else none
    | _ => none
  else none

theorem utf8DecodeStep_length_le (b : Nat) (rest : List Nat) (c : Nat)
    (rest2 : List Nat) (h : utf8DecodeStep b rest = some (c, rest2)) :
    rest2.length ≤ rest.length := by
  unfold utf8DecodeStep at h
  repeat' split at h
  all_goals simp_all
  all_goals simp [← h.2]
  all_goals omega

/-- The strict UTF-8 decoding loop.  Each step consumes at least one byte, so
the input length bounds the number of steps; the fuel argument makes the
recursion structural and is always instantiated with the input length. -/
def utf8DecodeBytesAux : Nat → List Nat → Option (List Nat)
  | _, [] => some []
  | 0, _ :: _ => none
  | fuel + 1, b :: rest =>
    match utf8DecodeStep b rest with
    | none => none
    | some (c, rest2) => (utf8DecodeBytesAux fuel rest2).map (fun cs => c :: cs)

/-- `bytes.decode()`: strict UTF-8 decoding; `none` is `UnicodeDecodeError`. -/
def utf8DecodeBytes (l : List Nat) : Option (List Nat) :=
  utf8DecodeBytesAux l.length l

theorem utf8DecodeBytesAux_fuel : ∀ fuel fuel' (l : List Nat), l.length ≤ fuel →
    l.length ≤ fuel' → utf8DecodeBytesAux fuel l = utf8DecodeBytesAux fuel' l := by
  intro fuel
  induction fuel with
  | zero =>
    intro fuel' l h h'
    cases l with
    | nil => simp [utf8DecodeBytesAux]
    | cons b rest => simp at h
  | succ f ih =>
    intro fuel' l hl hl'
    cases l with
    | nil => simp [utf8DecodeBytesAux]
    | cons b rest =>
      cases fuel' with
      | zero => simp at hl'
      | succ f' =>
        simp only [utf8DecodeBytesAux]
        cases hs : utf8DecodeStep b rest with
        | none => rfl
        | some p =>
          obtain ⟨c, rest2⟩ := p
          have hle := utf8DecodeStep_length_le b rest c rest2 hs
          simp only [List.length_cons] at hl hl'
          have hih := ih f' rest2 (by omega) (by omega)
          simp [hih]

/-- The base64 alphabet, index to character code. -/
def b64CharOfIndex (i : Nat) : Nat :=
  if i < 26 then 65 + i
  else if i < 52 then 97 + (i - 26)
  else if i < 62 then 48 + (i - 52)
  else if i = 62 then 43
  else 47

/-- `binascii.b2a_base64` / `base64.b64encode`: three bytes to four
characters, with `=` (61) padding for a trailing one- or two-byte group. -/
def b64encodeBytes : List Nat → List Nat
  | b0 :: b1 :: b2 :: rest =>
    b64CharOfIndex (b0 / 4) ::
    b64CharOfIndex (b0 % 4 * 16 + b1 / 16) ::
    b64CharOfIndex (b1 % 16 * 4 + b2 / 64) ::
    b64CharOfIndex (b2 % 64) :: b64encodeBytes rest
  | [b0, b1] =>
    [b64CharOfIndex (b0 / 4), b64CharOfIndex (b0 % 4 * 16 + b1 / 16),
     b64CharOfIndex (b1 % 16 * 4), 61]
  | [b0] => [b64CharOfIndex (b0 / 4), b64CharOfIndex (b0 % 4 * 16), 61, 61]
  | [] => []

/-- `table_a2b_base64`: character code to six-bit value. -/
def b64IndexOf (ch : Nat) : Option Nat :=
  if 65 ≤ ch ∧ ch ≤ 90 then some (ch - 65)
  else if 97 ≤ ch ∧ ch ≤ 122 then some (26 + (ch - 97))
  else if 48 ≤ ch ∧ ch ≤ 57 then some (52 + (ch - 48))
  else if ch = 43 then some 62
  else if ch = 47 then some 63
  else none

/-- The CPython `binascii.a2b_base64` loop in non-strict mode, over the
state (`quad_pos`, `leftchar`, `pads`, output so far).  Non-alphabet
characters are skipped; `=` after two or more data characters of a quad
completes the input; a leftover partial quad at the end is a
`binascii.Error` (`none`). -/
def a2bLoop : List Nat → Nat → Nat → Nat → List Nat → Option (List Nat)
  | [], quadPos, _, _, acc => if quadPos = 0 then some acc.reverse else none
  | ch :: rest, quadPos, left, pads, acc =>
    if ch = 61 then
      if 2 ≤ quadPos then
        if 4 ≤ quadPos + (pads + 1) then some acc.reverse
        else a2bLoop rest quadPos left (pads + 1) acc
      else a2bLoop rest quadPos left pads acc
    else
      match b64IndexOf ch with
      | none => a2bLoop rest quadPos left pads acc
      | some d =>
        match quadPos with
        | 0 => a2bLoop rest 1 d 0 acc
        | 1 => a2bLoop rest 2 (d % 16) 0 ((left * 4 + d / 16) :: acc)
        | 2 => a2bLoop rest 3 (d % 4) 0 ((left * 16 + d / 4) :: acc)
        | _ => a2bLoop rest 0 0 0 ((left * 64 + d) :: acc)

/-- `base64.b64decode` on a byte string (default `validate=False`). -/
def b64decodeBytes (s : List Nat) : Option (List Nat) :=
  a2bLoop s 0 0 0 []

/-- `encode_cursor`: `b64encode(value.encode()).decode()`.  The result is
`none` exactly when `value.encode()` raises (lone surrogates). -/
def encode_cursor (value : PyStr) : Option PyStr :=
  match pyEncodeUtf8 value with
  | none => none
  | some bs => utf8DecodeBytes (b64encodeBytes bs)

/-- `decode_cursor`: `b64decode(cursor.encode()).decode()` with
`BinasciiError`, `UnicodeDecodeError` and `ValueError` all converted to
`None`. -/
def decode_cursor (cursor : PyStr) : Option PyStr :=
  match pyEncodeUtf8 cursor with
  | none => none
  | some bs =>
    match b64decodeBytes bs with
    | none => none
    | some ds => utf8DecodeBytes ds

/-- `BaseService.find_by_cursor`, decoding step:
`decoded = decode_cursor(cursor) if cursor else None` (`None` and the empty
string are falsy). -/
def service_decode (cursor : Option PyStr) : Option PyStr :=
  match cursor with
  | none => none
  | some c => if c.isEmpty then none else decode_cursor c

/-- `SQLPaginationMixin.find_by_cursor`: `if cursor:` adds
`where(model.id > cursor)`, then the statement takes `limit + 1` rows.  The
rows (already ordered and soft-delete filtered by the surrounding query) and
the backend's string comparison `gt` are parameters. -/
def find_by_cursor_rows {R : Type} (gt : R → PyStr → Bool) (rows : List R)
    (cursor : Option PyStr) (limit : Nat) : List R :=
  (match cursor with
    | none => rows
    | some c => if c.isEmpty then rows else rows.filter (fun r => gt r c)).take
    (limit + 1)

/-! ### Lemmas about the cursor token codec -/

theorem utf8DecodeBytes_nil : utf8DecodeBytes [] = some [] := rfl

theorem utf8DecodeBytes_cons_some (b : Nat) (rest : List Nat) (c : Nat)
    (rest2 : List Nat) (h : utf8DecodeStep b rest = some (c, rest2)) :
    utf8DecodeBytes (b :: rest) = (utf8DecodeBytes rest2).map (fun cs => c :: cs) := by
  unfold utf8DecodeBytes
  have hle := utf8DecodeStep_length_le b rest c rest2 h
  simp only [List.length_cons, utf8DecodeBytesAux, h]
  rw [utf8DecodeBytesAux_fuel rest.length rest2.length rest2 (by omega) le_rfl]

theorem b64IndexOf_charOfIndex : ∀ i, i < 64 → b64IndexOf (b64CharOfIndex i) = some i := by
  decide

theorem b64CharOfIndex_ne_61 (i : Nat) : ¬ b64CharOfIndex i = 61 := by
  unfold b64CharOfIndex
  split_ifs <;> omega

theorem b64CharOfIndex_lt_128 (i : Nat) : b64CharOfIndex i < 128 := by
  unfold b64CharOfIndex
  split_ifs <;> omega

theorem b64encodeBytes_lt_128 (bs : List Nat) : ∀ x ∈ b64encodeBytes bs, x < 128 := by
  induction bs using b64encodeBytes.induct with
  | case1 b0 b1 b2 rest ih =>
    intro x hx
    simp only [b64encodeBytes, List.mem_cons] at hx
    rcases hx with h | h | h | h | h
    · exact h ▸ b64CharOfIndex_lt_128 _
    · exact h ▸ b64CharOfIndex_lt_128 _
    · exact h ▸ b64CharOfIndex_lt_128 _
    · exact h ▸ b64CharOfIndex_lt_128 _
    · exact ih x h
  | case2 b0 b1 =>
    intro x hx
    simp only [b64encodeBytes, List.mem_cons, List.not_mem_nil, or_false] at hx
    rcases hx with h | h | h | h <;> subst h
    · exact b64CharOfIndex_lt_128 _
    · exact b64CharOfIndex_lt_128 _
    · exact b64CharOfIndex_lt_128 _
    · omega
  | case3 b0 =>
    intro x hx
    simp only [b64encodeBytes, List.mem_cons, List.not_mem_nil, or_false] at hx
    rcases hx with h | h | h | h <;> subst h
    · exact b64CharOfIndex_lt_128 _
    · exact b64CharOfIndex_lt_128 _
    · omega
    · omega
  | case4 => intro x hx; simp [b64encodeBytes] at hx

theorem pyEncodeUtf8_ascii (l : List Nat) (h : ∀ x ∈ l, x < 128) :
    pyEncodeUtf8 l = some l := by
  induction l with
  | nil => rfl
  | cons c cs ih =>
    have hc : c < 128 := h c (by simp)
    have hcs := ih (fun x hx => h x (by simp [hx]))
    simp [pyEncodeUtf8, utf8EncodeChar, hc, hcs]

theorem utf8DecodeStep_ascii (b : Nat) (rest : List Nat) (hb : b < 128) :
    utf8DecodeStep b rest = some (b, rest) := by
  simp [utf8DecodeStep, hb]

theorem utf8DecodeBytes_ascii (l : List Nat) (h : ∀ x ∈ l, x < 128) :
    utf8DecodeBytes l = some l := by
  induction l with
  | nil => exact utf8DecodeBytes_nil
  | cons c cs ih =>
    have hc : c < 128 := h c (by simp)
    have hcs := ih (fun x hx => h x (by simp [hx]))
    rw [utf8DecodeBytes_cons_some c cs c cs (utf8DecodeStep_ascii c cs hc), hcs]
    rfl

theorem utf8EncodeChar_lt_256 (c : Nat) (b : List Nat) (h : utf8EncodeChar c = some b) :
    ∀ x ∈ b, x < 256 := by
  unfold utf8EncodeChar at h
  split_ifs at h with h1 h2 h3 h4 h5 h6 <;>
    (injection h with h; subst h; intro x hx; simp at hx) <;> omega

theorem pyEncodeUtf8_lt_256 (v : PyStr) (bs : List Nat) (h : pyEncodeUtf8 v = some bs) :
    ∀ x ∈ bs, x < 256 := by
  induction v generalizing bs with
  | nil =>
    simp only [pyEncodeUtf8] at h
    injection h with h
    subst h
    intro x hx
    simp at hx
  | cons c cs ih =>
    simp only [pyEncodeUtf8] at h
    cases he : utf8EncodeChar c <;> rw [he] at h
    · exact absurd h (by simp)
    cases hr : pyEncodeUtf8 cs <;> rw [hr] at h
    · exact absurd h (by simp)
    injection h with h
    subst h
    intro x hx
    rcases List.mem_append.mp hx with hb | hb
    · exact utf8EncodeChar_lt_256 c _ he x hb
    · exact ih _ hr x hb

theorem utf8DecodeStep_twoByte (c : Nat) (rest : List Nat) (h1 : ¬ c < 128)
    (h2 : c < 2048) :
    utf8DecodeStep (192 + c / 64) ((128 + c % 64) :: rest) = some (c, rest) := by
  have e1 : ¬ (192 + c / 64 < 128) := by omega
  have e2 : ¬ (192 + c / 64 < 194) := by omega
  have e3 : 192 + c / 64 < 224 := by omega
  simp only [utf8DecodeStep]
  rw [if_neg e1, if_neg e2, if_pos e3,
    if_pos (⟨by omega, by omega⟩ : 128 ≤ 128 + c % 64 ∧ 128 + c % 64 < 192)]
  have hval : (192 + c / 64 - 192) * 64 + (128 + c % 64 - 128) = c := by omega
  rw [hval]

theorem utf8DecodeStep_threeByte (c : Nat) (rest : List Nat) (h1 : ¬ c < 2048)
    (h2 : ¬ (55296 ≤ c ∧ c < 57344)) (h3 : c < 65536) :
    utf8DecodeStep (224 + c / 4096)
      ((128 + c / 64 % 64) :: (128 + c % 64) :: rest) = some (c, rest) := by
  have e1 : ¬ (224 + c / 4096 < 128) := by omega
  have e2 : ¬ (224 + c / 4096 < 194) := by omega
  have e3 : ¬ (224 + c / 4096 < 224) := by omega
  have e4 : 224 + c / 4096 < 240 := by omega
  simp only [utf8DecodeStep]
  rw [if_neg e1, if_neg e2, if_neg e3, if_pos e4,
    if_pos (⟨by omega, by omega, by omega, by omega⟩ :
      128 ≤ 128 + c / 64 % 64 ∧ 128 + c / 64 % 64 < 192 ∧
      128 ≤ 128 + c % 64 ∧ 128 + c % 64 < 192)]
  have hval : (224 + c / 4096 - 224) * 4096 + (128 + c / 64 % 64 - 128) * 64 +
      (128 + c % 64 - 128) = c := by omega
  rw [hval, if_pos (⟨by omega, h2⟩ : 2048 ≤ c ∧ ¬ (55296 ≤ c ∧ c < 57344))]

theorem utf8DecodeStep_fourByte (c : Nat) (rest : List Nat) (h1 : ¬ c < 65536)
    (h2 : c < 1114112) :
    utf8DecodeStep (240 + c / 262144)
      ((128 + c / 4096 % 64) :: (128 + c / 64 % 64) :: (128 + c % 64) :: rest) =
      some (c, rest) := by
  have e1 : ¬ (240 + c / 262144 < 128) := by omega
  have e2 : ¬ (240 + c / 262144 < 194) := by omega
  have e3 : ¬ (240 + c / 262144 < 224) := by omega
  have e4 : ¬ (240 + c / 262144 < 240) := by omega
  have e5 : 240 + c / 262144 < 245 := by omega
  simp only [utf8DecodeStep]
  rw [if_neg e1, if_neg e2, if_neg e3, if_neg e4, if_pos e5,
    if_pos (⟨by omega, by omega, by omega, by omega, by omega, by omega⟩ :
      128 ≤ 128 + c / 4096 % 64 ∧ 128 + c / 4096 % 64 < 192 ∧
      128 ≤ 128 + c / 64 % 64 ∧ 128 + c / 64 % 64 < 192 ∧
      128 ≤ 128 + c % 64 ∧ 128 + c % 64 < 192)]
  have hval : (240 + c / 262144 - 240) * 262144 + (128 + c / 4096 % 64 - 128) * 4096 +
      (128 + c / 64 % 64 - 128) * 64 + (128 + c % 64 - 128) = c := by omega
  rw [hval, if_pos (⟨by omega, h2⟩ : 65536 ≤ c ∧ c < 1114112)]

theorem utf8DecodeBytes_encodeChar (c : Nat) (b rest : List Nat)
    (h : utf8EncodeChar c = some b) :
    utf8DecodeBytes (b ++ rest) = (utf8DecodeBytes rest).map (fun cs => c :: cs) := by
  unfold utf8EncodeChar at h
  split_ifs at h with h1 h2 h3 h4 h5 h6 <;> injection h with h <;> subst h <;>
    simp only [List.cons_append, List.nil_append]
  · exact utf8DecodeBytes_cons_some c rest c rest (utf8DecodeStep_ascii c rest h1)
  · exact utf8DecodeBytes_cons_some _ _ c rest (utf8DecodeStep_twoByte c rest h1 h2)
  · exact utf8DecodeBytes_cons_some _ _ c rest
      (utf8DecodeStep_threeByte c rest (by omega) (by omega) (by omega))
  · exact utf8DecodeBytes_cons_some _ _ c rest
      (utf8DecodeStep_threeByte c rest (by omega) (by omega) (by omega))
  · exact utf8DecodeBytes_cons_some _ _ c rest
      (utf8DecodeStep_fourByte c rest (by omega) (by omega))

theorem utf8_roundtrip (v : PyStr) (bs : List Nat) (h : pyEncodeUtf8 v = some bs) :
    utf8DecodeBytes bs = some v := by
  induction v generalizing bs with
  | nil =>
    simp only [pyEncodeUtf8] at h
    injection h with h
    subst h
    exact utf8DecodeBytes_nil
  | cons c cs ih =>
    simp only [pyEncodeUtf8] at h
    cases he : utf8EncodeChar c <;> rw [he] at h
    · exact absurd h (by simp)
    cases hr : pyEncodeUtf8 cs <;> rw [hr] at h
    · exact absurd h (by simp)
    injection h with h
    subst h
    rw [utf8DecodeBytes_encodeChar c _ _ he, ih _ hr]
    rfl

/-! ### Lemmas about the base64 state machine -/

theorem a2bLoop_data0 (ch : Nat) (rest : List Nat) (left pads : Nat)
    (acc : List Nat) (d : Nat) (hne : ¬ ch = 61) (hidx : b64IndexOf ch = some d) :
    a2bLoop (ch :: rest) 0 left pads acc = a2bLoop rest 1 d 0 acc := by
  simp [a2bLoop, hne, hidx]

theorem a2bLoop_data1 (ch : Nat) (rest : List Nat) (left pads : Nat)
    (acc : List Nat) (d : Nat) (hne : ¬ ch = 61) (hidx : b64IndexOf ch = some d) :
    a2bLoop (ch :: rest) 1 left pads acc =
      a2bLoop rest 2 (d % 16) 0 ((left * 4 + d / 16) :: acc) := by
  simp [a2bLoop, hne, hidx]

theorem a2bLoop_data2 (ch : Nat) (rest : List Nat) (left pads : Nat)
    (acc : List Nat) (d : Nat) (hne : ¬ ch = 61) (hidx : b64IndexOf ch = some d) :
    a2bLoop (ch :: rest) 2 left pads acc =
      a2bLoop rest 3 (d % 4) 0 ((left * 16 + d / 4) :: acc) := by
  simp [a2bLoop, hne, hidx]

theorem a2bLoop_data3 (ch : Nat) (rest : List Nat) (left pads : Nat)
    (acc : List Nat) (d : Nat) (hne : ¬ ch = 61) (hidx : b64IndexOf ch = some d) :
    a2bLoop (ch :: rest) 3 left pads acc =
      a2bLoop rest 0 0 0 ((left * 64 + d) :: acc) := by
  simp [a2bLoop, hne, hidx]

theorem a2bLoop_pad2_cont (rest : List Nat) (left : Nat) (acc : List Nat) :
    a2bLoop (61 :: rest) 2 left 0 acc = a2bLoop rest 2 left 1 acc := by
  simp [a2bLoop]

theorem a2bLoop_pad2_done (rest : List Nat) (left : Nat) (acc : List Nat) :
    a2bLoop (61 :: rest) 2 left 1 acc = some acc.reverse := by
  simp [a2bLoop]

theorem a2bLoop_pad3_done (rest : List Nat) (left pads : Nat) (acc : List Nat) :
    a2bLoop (61 :: rest) 3 left pads acc = some acc.reverse := by
  have h4 : 4 ≤ 3 + (pads + 1) := by omega
  simp [a2bLoop, h4]

theorem a2bLoop_b64encode : ∀ (bs : List Nat), (∀ b ∈ bs, b < 256) →
    ∀ acc, a2bLoop (b64encodeBytes bs) 0 0 0 acc = some (acc.reverse ++ bs) := by
  intro bs
  induction bs using b64encodeBytes.induct with
  | case1 b0 b1 b2 rest ih =>
    intro hb acc
    have h0 : b0 < 256 := hb b0 (by simp)
    have h1 : b1 < 256 := hb b1 (by simp)
    have h2 : b2 < 256 := hb b2 (by simp)
    rw [b64encodeBytes,
      a2bLoop_data0 _ _ _ _ _ _ (b64CharOfIndex_ne_61 _)
        (b64IndexOf_charOfIndex _ (by omega)),
      a2bLoop_data1 _ _ _ _ _ _ (b64CharOfIndex_ne_61 _)
        (b64IndexOf_charOfIndex _ (by omega)),
      a2bLoop_data2 _ _ _ _ _ _ (b64CharOfIndex_ne_61 _)
        (b64IndexOf_charOfIndex _ (by omega)),
      a2bLoop_data3 _ _ _ _ _ _ (b64CharOfIndex_ne_61 _)
        (b64IndexOf_charOfIndex _ (by omega))]
    have e1 : b0 / 4 * 4 + (b0 % 4 * 16 + b1 / 16) / 16 = b0 := by omega
    have e2 : (b0 % 4 * 16 + b1 / 16) % 16 * 16 + (b1 % 16 * 4 + b2 / 64) / 4 = b1 := by
      omega
    have e3 : (b1 % 16 * 4 + b2 / 64) % 4 * 64 + b2 % 64 = b2 := by omega
    rw [e1, e2, e3, ih (fun x hx => hb x (by simp [hx])) (b2 :: b1 :: b0 :: acc)]
    simp
  | case2 b0 b1 =>
    intro hb acc
    have h0 : b0 < 256 := hb b0 (by simp)
    have h1 : b1 < 256 := hb b1 (by simp)
    rw [b64encodeBytes,
      a2bLoop_data0 _ _ _ _ _ _ (b64CharOfIndex_ne_61 _)
        (b64IndexOf_charOfIndex _ (by omega)),
      a2bLoop_data1 _ _ _ _ _ _ (b64CharOfIndex_ne_61 _)
        (b64IndexOf_charOfIndex _ (by omega)),
      a2bLoop_data2 _ _ _ _ _ _ (b64CharOfIndex_ne_61 _)
        (b64IndexOf_charOfIndex _ (by omega))]
    have e1 : b0 / 4 * 4 + (b0 % 4 * 16 + b1 / 16) / 16 = b0 := by omega
    have e2 : (b0 % 4 * 16 + b1 / 16) % 16 * 16 + b1 % 16 * 4 / 4 = b1 := by omega
    rw [e1, e2, a2bLoop_pad3_done]
    simp
  | case3 b0 =>
    intro hb acc
    have h0 : b0 < 256 := hb b0 (by simp)
    rw [b64encodeBytes,
      a2bLoop_data0 _ _ _ _ _ _ (b64CharOfIndex_ne_61 _)
        (b64IndexOf_charOfIndex _ (by omega)),
      a2bLoop_data1 _ _ _ _ _ _ (b64CharOfIndex_ne_61 _)
        (b64IndexOf_charOfIndex _ (by omega))]
    have e1 : b0 / 4 * 4 + b0 % 4 * 16 / 16 = b0 := by omega
    have e2 : b0 % 4 * 16 % 16 = 0 := by omega
    rw [e1, e2, a2bLoop_pad2_cont, a2bLoop_pad2_done]
    simp
  | case4 =>
    intro hb acc
    simp [b64encodeBytes, a2bLoop]

/-- The reusable round-trip fact: any token produced by `encode_cursor`
decodes back to the encoded string. -/
theorem decode_encode_aux (v t : PyStr) (h : encode_cursor v = some t) :
    decode_cursor t = some v := by
  unfold encode_cursor at h
  cases hv : pyEncodeUtf8 v with
  | none => rw [hv] at h; exact absurd h (by simp)
  | some bs =>
    rw [hv] at h
    have hascii : ∀ x ∈ b64encodeBytes bs, x < 128 := b64encodeBytes_lt_128 bs
    simp only [utf8DecodeBytes_ascii _ hascii, Option.some.injEq] at h
    subst h
    simp only [decode_cursor, pyEncodeUtf8_ascii _ hascii, b64decodeBytes,
      a2bLoop_b64encode bs (pyEncodeUtf8_lt_256 v bs hv) [],
      List.reverse_nil, List.nil_append]
    exact utf8_roundtrip v bs hv

/-- **C5** (amended).  Cursor tokens round-trip: decoding the encoded token of
any string yields the string back.  Decoding never raises — it yields either a
string or `None` — and whenever `decode_cursor` yields `None`, the service
passes no cursor to the repository, so `find_by_cursor` serves the first page.
(The original claim that every invalid token decodes to `None` fails: because
`b64decode` discards non-alphabet characters, a corrupt token may instead
decode to a string.) -/
theorem cursor_token_roundtrip (v t : PyStr) (h : encode_cursor v = some t) :
    decode_cursor t = some v ∧
    (∀ (R : Type) (gt : R → PyStr → Bool) (rows : List R) (limit : Nat)
      (tok : PyStr), decode_cursor tok = none →
        find_by_cursor_rows gt rows (service_decode (some tok)) limit =
          find_by_cursor_rows gt rows none limit) := by
  refine ⟨decode_encode_aux v t h, ?_⟩
  intro R gt rows limit tok hnone
  unfold service_decode
  by_cases he : tok.isEmpty <;> simp [he, hnone]

/-- Witness for C5: the token of `"foo"` decodes back to `"foo"`. -/
theorem cursor_token_roundtrip_witness :
    decode_cursor [90, 109, 57, 118] = some [102, 111, 111] :=
  (cursor_token_roundtrip [102, 111, 111] [90, 109, 57, 118] rfl).1

/-- Counterexample to C5 as stated: it is not the case that every token that
is no valid encoding decodes to `None`.  The corrupt token `"Zm9v "` (with a
trailing space, which `encode_cursor` can never emit) decodes to `"foo"`,
because `b64decode` discards the non-alphabet space before decoding. -/
theorem cursor_invalid_token_counterexample :
    ¬ (∀ tok : PyStr, (∀ v : PyStr, ¬ encode_cursor v = some tok) →
        decode_cursor tok = none) := by
  intro hclaim
  have hbad : decode_cursor [90, 109, 57, 118, 32] = some [102, 111, 111] := by
    decide
  have hnoenc : ∀ v : PyStr, ¬ encode_cursor v = some [90, 109, 57, 118, 32] := by
    intro v hv
    have hdec := decode_encode_aux v _ hv
    rw [hbad] at hdec
    have hv2 : v = [102, 111, 111] := by
      injection hdec with h2
      exact h2.symm
    subst hv2
    have henc : encode_cursor [102, 111, 111] = some [90, 109, 57, 118] := by
      decide
    rw [henc] at hv
    simp at hv
  have hres := hclaim _ hnoenc
  rw [hbad] at hres
  exact Option.noConfusion hres

/-- **C4.** With `update_fields = None`, the field list handed to the dialect
strategy is the keys of `data` minus the conflict fields; and for a strategy
with `supports_returning = false` (the MySQL-family strategy) the record
returned by `upsert` is the one obtained by re-querying the post-execution
table with equality filters on the conflict-field values taken from `data`. -/
theorem upsert_default_fields_and_requery (V : Type) [DecidableEq V]
    (strategy : UpsertStrategy V)
    (exec : List (DRow V) → UpsertStmt V → List (DRow V)) (t : List (DRow V))
    (data : DRow V) (conflict_fields : List String)
    (hsr : strategy.supports_returning = false)
    (filters : List (String × V))
    (hf : build_filters data conflict_fields = some filters) :
    fields_to_update data conflict_fields none =
      (data.map Prod.fst).filter (fun k => !conflict_fields.contains k) ∧
    (upsert strategy exec t data conflict_fields none).2 =
      exec t (strategy.build_upsert data conflict_fields
        ((data.map Prod.fst).filter (fun k => !conflict_fields.contains k))) ∧
    (upsert strategy exec t data conflict_fields none).1 =
      scalar_one (filter_by (upsert strategy exec t data conflict_fields none).2
        filters) := by
  refine ⟨rfl, ?_, ?_⟩
  · simp [upsert, hf, fields_to_update]
  · simp [upsert, hf]

/-- Witness for C4: the MySQL strategy on a one-row insert; the upserted record
comes back from the conflict-key re-query. -/
theorem upsert_default_fields_and_requery_witness :
    (upsert (MySQLUpsertStrategy Nat)
        (fun t stmt => match stmt with
          | .mysqlOnDuplicateKey d _ => t ++ [d]
          | _ => t)
        [] [("id", 1), ("n", 2)] ["id"] none).1 = .ok [("id", 1), ("n", 2)] := by
  have h := upsert_default_fields_and_requery Nat (MySQLUpsertStrategy Nat)
    (fun t stmt => match stmt with
      | .mysqlOnDuplicateKey d _ => t ++ [d]
      | _ => t)
    [] [("id", 1), ("n", 2)] ["id"] rfl [("id", (1 : Nat))] rfl
  rw [h.2.2]
  rfl


/-! ## Base service (`persistence/service.py`) -/

/-- Service-level failures: the structured `NotFoundError(resource, identifier)`
from `exceptions.py`, or a propagated backend error. -/
inductive ServiceError where
  | notFound (resource : String) (identifier : String)
  | db (e : DBError)
deriving DecidableEq

namespace BaseService

variable {α : Type}

/-- `BaseService.find_by_id`: fetch, translating a `None` result into
`NotFoundError(resource_name, entity_id)`. -/
def find_by_id (resource : String) (t : Table α) (i : String) :
    Except ServiceError (SRecord α) :=
  match SQLRepo.find_by_id t i false with
  | .error e => .error (.db e)
  | .ok none => .error (.notFound resource i)
  | .ok (some r) => .ok r

/-- `BaseService.update`: `if not data: return await self.find_by_id(entity_id)`,
otherwise a repository update whose `None` result raises not-found.  The
field-value dict drives only the emptiness test; its column assignment is the
abstract `apply`. -/
def update (resource : String) (t : Table α) (i : String)
    (data : List (String × String)) (apply : SRecord α → SRecord α) :
    Except ServiceError (SRecord α) × Table α :=
  if data.isEmpty then
    (find_by_id resource t i, t)
  else
    match SQLRepo.repo_update t i apply with
    | (.error e, t') => (.error (.db e), t')
    | (.ok none, t') => (.error (.notFound resource i), t')
    | (.ok (some r), t') => (.ok r, t')

end BaseService

/-! ### Helper lemmas on fresh ids -/

theorem filter_id_and_eq_nil {α : Type} (t : Table α) (i : String)
    (q : SRecord α → Bool) (h : ∀ r ∈ t, ¬ r.id = i) :
    t.filter (fun r => (r.id == i) && q r) = [] := by
  refine List.filter_eq_nil_iff.mpr (fun r hr => ?_)
  simp [h r hr]

theorem filter_id_eq_nil {α : Type} (t : Table α) (i : String)
    (h : ∀ r ∈ t, ¬ r.id = i) :
    t.filter (fun r => r.id == i) = [] := by
  refine List.filter_eq_nil_iff.mpr (fun r hr => ?_)
  simp [h r hr]

theorem map_fix_of_fresh {α : Type} (t : Table α) (i : String)
    (f : SRecord α → SRecord α) (hf : ∀ r, ¬ r.id = i → f r = r)
    (h : ∀ r ∈ t, ¬ r.id = i) : t.map f = t := by
  induction t with
  | nil => rfl
  | cons r t ih =>
    simp only [List.map_cons, List.cons.injEq]
    exact ⟨hf r (h r (by simp)), ih (fun x hx => h x (by simp [hx]))⟩

/-- **C1.** Soft-delete round trip on a soft-deletable record type: after
`create` of a row with fresh id `i` followed by a soft `delete(i)`,
`find_by_id(i)` returns none, `find_by_id(i, include_deleted=True)` returns the
row with its soft-delete marker set, and after `restore(i)` the row (marker
cleared) is returned by `find_by_id(i)` again. -/
theorem soft_delete_roundtrip (α : Type) (t : Table α) (i : String) (p : α)
    (now : Nat) (hfresh : ∀ r ∈ t, ¬ r.id = i) :
    (SQLRepo.delete (SQLRepo.create t i p).2 i false now).1 = true ∧
    SQLRepo.find_by_id (SQLRepo.delete (SQLRepo.create t i p).2 i false now).2 i
      false = .ok none ∧
    SQLRepo.find_by_id (SQLRepo.delete (SQLRepo.create t i p).2 i false now).2 i
      true = .ok (some ⟨i, p, true, some now⟩) ∧
    (SQLRepo.restore (SQLRepo.delete (SQLRepo.create t i p).2 i false now).2 i).1 =
      .ok (some ⟨i, p, false, none⟩) ∧
    SQLRepo.find_by_id
      (SQLRepo.restore (SQLRepo.delete (SQLRepo.create t i p).2 i false now).2 i).2
      i false = .ok (some ⟨i, p, false, none⟩) := by
  have hmap1 : t.map (SQLRepo.soft_delete_row i now) = t :=
    map_fix_of_fresh t i _ (fun r hr => by simp [SQLRepo.soft_delete_row, hr]) hfresh
  have ht2 : (SQLRepo.delete (SQLRepo.create t i p).2 i false now).2 =
      t ++ [⟨i, p, true, some now⟩] := by
    simp [SQLRepo.delete, SQLRepo.create, SQLRepo.soft_delete,
      SQLRepo.supports_soft_delete, hmap1, SQLRepo.soft_delete_row]
  have hsel2 : SQLRepo.selectById (t ++ [(⟨i, p, true, some now⟩ : SRecord α)]) i =
      [⟨i, p, true, some now⟩] := by
    simp [SQLRepo.selectById, List.filter_append, filter_id_eq_nil t i hfresh]
  refine ⟨?_, ?_, ?_, ?_, ?_⟩
  · simp [SQLRepo.delete, SQLRepo.create, SQLRepo.soft_delete,
      SQLRepo.supports_soft_delete, List.filter_append,
      filter_id_and_eq_nil t i _ hfresh]
  · rw [ht2]
    simp [SQLRepo.find_by_id, hsel2, SQLRepo.exclude_deleted,
      SQLRepo.scalar_one_or_none]
  · rw [ht2]
    simp [SQLRepo.find_by_id, hsel2, SQLRepo.scalar_one_or_none]
  · rw [ht2]
    simp [SQLRepo.restore, SQLRepo.supports_soft_delete, List.filter_append,
      filter_id_and_eq_nil t i _ hfresh, SQLRepo.scalar_one_or_none]
  · rw [ht2]
    have hmap2 : t.map (SQLRepo.restore_row i) = t :=
      map_fix_of_fresh t i _ (fun r hr => by simp [SQLRepo.restore_row, hr]) hfresh
    simp only [SQLRepo.restore, SQLRepo.supports_soft_delete, Bool.not_true,
      Bool.false_eq_true, if_false, List.map_append, hmap2]
    simp [SQLRepo.find_by_id, SQLRepo.selectById, List.filter_append,
      filter_id_eq_nil t i hfresh, SQLRepo.restore_row, SQLRepo.exclude_deleted,
      SQLRepo.scalar_one_or_none]


/-- Witness for C1 on a concrete one-row table. -/
theorem soft_delete_roundtrip_witness :
    SQLRepo.find_by_id
      (SQLRepo.delete (SQLRepo.create ([⟨"a", 0, false, none⟩] : Table Nat) "b" 7).2
        "b" false 5).2 "b" false = .ok none ∧
    SQLRepo.find_by_id
      (SQLRepo.delete (SQLRepo.create ([⟨"a", 0, false, none⟩] : Table Nat) "b" 7).2
        "b" false 5).2 "b" true = .ok (some ⟨"b", 7, true, some 5⟩) := by
  have h := soft_delete_roundtrip Nat [⟨"a", 0, false, none⟩] "b" 7 5
    (by intro r hr; simp at hr; simp [hr])
  exact ⟨h.2.1, h.2.2.1⟩

/-- **C8.** Service `update` with an empty field-value dict short-circuits to a
plain fetch: it issues no repository write, leaves the table unchanged, and
returns exactly the result of `find_by_id` — in particular the structured
not-found failure when the id is absent. -/
theorem service_update_empty_is_fetch (α : Type) (resource : String)
    (t : Table α) (i : String) (apply : SRecord α → SRecord α) :
    BaseService.update resource t i [] apply =
      (BaseService.find_by_id resource t i, t) ∧
    ((∀ r ∈ t, ¬ r.id = i) →
      BaseService.update resource t i [] apply =
        (.error (.notFound resource i), t)) := by
  constructor
  · rfl
  · intro hfresh
    have hfind : SQLRepo.find_by_id t i false = .ok none := by
      simp [SQLRepo.find_by_id, SQLRepo.selectById, filter_id_eq_nil t i hfresh,
        SQLRepo.exclude_deleted, SQLRepo.scalar_one_or_none]
    simp [BaseService.update, BaseService.find_by_id, hfind]

/-- Witness for C8 on a concrete table with the id absent. -/
theorem service_update_empty_is_fetch_witness :
    BaseService.update "Todo" ([⟨"a", 0, false, none⟩] : Table Nat) "b" [] id =
      (.error (.notFound "Todo" "b"), [⟨"a", 0, false, none⟩]) := by
  exact (service_update_empty_is_fetch Nat "Todo" [⟨"a", 0, false, none⟩] "b" id).2
    (by intro r hr; simp at hr; simp [hr])

/-- **C10.** `exists(id)` always applies the soft-delete filter and has no
`include_deleted` override: for a currently soft-deleted row it returns false
even though `find_by_id(id, include_deleted=True)` returns the row. -/
theorem exists_filters_soft_deleted (α : Type) (t : Table α) (i : String)
    (r : SRecord α) (hq : t.filter (fun x => x.id == i) = [r])
    (hdel : r.is_deleted = true) :
    SQLRepo.existsById t i = false ∧
    SQLRepo.find_by_id t i true = .ok (some r) := by
  constructor
  · simp [SQLRepo.existsById, SQLRepo.selectById, hq, SQLRepo.exclude_deleted, hdel]
  · simp [SQLRepo.find_by_id, SQLRepo.selectById, hq, SQLRepo.scalar_one_or_none]

/-- Witness for C10 on a concrete soft-deleted row. -/
theorem exists_filters_soft_deleted_witness :
    SQLRepo.existsById ([⟨"a", 0, true, some 3⟩] : Table Nat) "a" = false ∧
    SQLRepo.find_by_id ([⟨"a", 0, true, some 3⟩] : Table Nat) "a" true =
      .ok (some ⟨"a", 0, true, some 3⟩) := by
  exact exists_filters_soft_deleted Nat [⟨"a", 0, true, some 3⟩] "a"
    ⟨"a", 0, true, some 3⟩ (by simp) rfl

end FastService
